import Mathlib

/-!
Shallow embedding of the temporal-windowing, boundary-mask, codec-dispatch and
report-assembly logic of `inference/infer.py` (XFusion repository).

Modelling conventions:
* Sequence indices, frame separations and shape sizes are nonnegative Python
  integers; they are modelled as `Nat`.  Python's `max(0, a - b)` on integers
  coincides with `max 0 (a - b)` over `Nat` (truncated subtraction), and
  Python's floor division `//` on nonnegative integers is `Nat` division.
* `int(math.sqrt(b))` (line 54) is modelled as `Nat.sqrt b`, the floor square
  root, which agrees with the float computation for every realistic batch size.
* Tensors are modelled at shape level (`List Nat` of dimension sizes), since
  every claim about `tensor2img` concerns only its shape/branch behaviour.
* `numpy` produces IEEE `+inf` for `255*255/0.0` and `log10(+inf) = +inf`
  (line 241), so the PSNR value is modelled in `EReal` with an explicit
  division-by-zero case yielding `⊤`.
* Fallible paths (KeyError on a missing `gt`/`image` field, the TypeError
  raised by `tensor2img`) are modelled with `Except`.
-/

/-- Spec-side definition (from the spec's words, for refinement comparison):
`clamp(v, lo, hi)` over integers. -/
def clampSpec (v lo hi : Int) : Int := min hi (max lo v)

/-- Spec-side definition: `blkStart = floor(idx / (2*hiSep)) * (2*hiSep)`. -/
def blkStartSpec (hiSep idx : Nat) : Nat := idx / (2 * hiSep) * (2 * hiSep)

/-- Spec-side definition: `blkEnd = min(maxValidHiIndex, blkStart + 2*hiSep)`. -/
def blkEndSpec (maxValidHi hiSep idx : Nat) : Nat :=
  min maxValidHi (blkStartSpec hiSep idx + 2 * hiSep)

/-- Spec-side definition: `ceil(sqrt(n))` on naturals — the grid column count
the spec claims for the 4-dimensional codec branch. -/
def ceilSqrtSpec (n : Nat) : Nat :=
  if Nat.sqrt n * Nat.sqrt n = n then Nat.sqrt n else Nat.sqrt n + 1

/-- A Frame Source record, as the window-assembly code sees it: an ordered
low-resolution stack plus the optional `gt` / `image` reference fields
(`dataset[i]` in `infer.py`; a missing dict key is `none`). -/
structure Sample (α : Type) where
  lowRes : List α
  gt : Option α
  image : Option α

/-- `infer.py` lines 208/212-215/217: the high-resolution block start
`max(0, int(idx // (hi_frame_sep*2) * hi_frame_sep * 2))`. -/
def blkStart (hiSep idx : Nat) : Nat := max 0 (idx / (hiSep * 2) * hiSep * 2)

/-- `infer.py` lines 213/215: the high-resolution block end
`min(gt_size[2], int((idx // (hi_frame_sep*2) + 1) * hi_frame_sep * 2))`;
`gt_size[2]` is the configured `maxValidHi` bound. -/
def blkEnd (maxValidHi hiSep idx : Nat) : Nat :=
  min maxValidHi ((idx / (hiSep * 2) + 1) * hiSep * 2)

/-- `infer.py` lines 204-206: the low-resolution triple, concatenated from the
`center_frame_idx` slices of the samples at `max(0, idx - lo_frame_sep)`,
`idx`, and `min(len(dataset) - 1, idx + lo_frame_sep)`, in that order.
`List.getD center d` models the stack slice `['lq'][center_frame_idx]`. -/
def lqTriple {α : Type} (ds : Nat → Sample α) (center N loSep idx : Nat) (d : α) :
    α × α × α :=
  ((ds (max 0 (idx - loSep))).lowRes.getD center d,
   (ds idx).lowRes.getD center d,
   (ds (min (N - 1) (idx + loSep))).lowRes.getD center d)

/-- `infer.py` lines 217-220: the boundary flag appended to `masks` — `1` when
`idx == max(0, idx // (hi_frame_sep*2) * hi_frame_sep * 2)` or
`idx == min(len(dataset) - 1, idx + lo_frame_sep)`, else `0`. -/
def maskFlag (N loSep hiSep idx : Nat) : Nat :=
  if idx = blkStart hiSep idx ∨ idx = min (N - 1) (idx + loSep) then 1 else 0

/-- The Frame Source indices consulted while assembling the window for `idx`
(`dataset[...]` lookups on lines 192, 204, 206, 208, 212-215). -/
def windowLookups (N maxValidHi loSep hiSep idx : Nat) : List Nat :=
  [idx, max 0 (idx - loSep), min (N - 1) (idx + loSep),
   blkStart hiSep idx, blkEnd maxValidHi hiSep idx]

/-- Failure raised when a sample's reference field is absent: the `KeyError`
produced by reading `gt`/`image` on a record that lacks it (the spec's
`MissingReferenceError`). -/
inductive RefError where
  | missingReference
  deriving DecidableEq

/-- `infer.py` lines 194-197: the target sample's reference selection — use
`gt` when present, otherwise read `image` (a `KeyError` when both absent). -/
def prepTarget {α : Type} (s : Sample α) : Except RefError α :=
  match s.gt with
  | some g => Except.ok g
  | none =>
    match s.image with
    | some i => Except.ok i
    | none => Except.error RefError.missingReference

/-- A single `dataset[j][gt_key]` dictionary access: `useGt` records which key
`gt_key` names; reading an absent key raises. -/
def lookupRef {α : Type} (s : Sample α) (useGt : Bool) : Except RefError α :=
  if useGt then
    match s.gt with
    | some g => Except.ok g
    | none => Except.error RefError.missingReference
  else
    match s.image with
    | some i => Except.ok i
    | none => Except.error RefError.missingReference

/-- `infer.py` lines 208-215: `gt_key` is chosen from the sample at `blkStart`
(`'gt'` when present, else `'image'`), then the reference pair is read with
that key at `blkStart` and at `blkEnd`. -/
def assembleHq {α : Type} (ds : Nat → Sample α) (maxValidHi hiSep idx : Nat) :
    Except RefError (α × α) :=
  let s0 := ds (blkStart hiSep idx)
  let useGt := s0.gt.isSome
  match lookupRef s0 useGt with
  | Except.error e => Except.error e
  | Except.ok a =>
    match lookupRef (ds (blkEnd maxValidHi hiSep idx)) useGt with
    | Except.error e => Except.error e
    | Except.ok b => Except.ok (a, b)

/-- Outcome of the dimensionality dispatch of `tensor2img` (lines 52-69), at
shape level: `grid4 cols` is the `make_grid` branch with `nrow = cols` (the
RGB→BGR reorder, when requested, follows the tiling); `single3 gray` is the
single-image branch, with `gray = true` exactly when the image was squeezed
to 2D; `pass2` is the unchanged 2-dimensional branch. -/
inductive ImgStep where
  | grid4 (cols : Nat)
  | single3 (gray : Bool)
  | pass2
  deriving DecidableEq

/-- `torch.Tensor.squeeze(0)` at shape level (line 49): dimension 0 is dropped
exactly when its size is 1. -/
def squeeze0 (s : List Nat) : List Nat :=
  match s with
  | d :: rest => if d = 1 then rest else s
  | [] => []

/-- `infer.py` lines 52-69: dispatch on the (already squeezed) tensor shape.
The 4-dimensional branch calls `make_grid` with
`nrow = int(math.sqrt(B))` (= `Nat.sqrt B`); the 3-dimensional branch
squeezes to 2D exactly when `shape[2] == 1` after the transpose, i.e. when
the channel count is 1; any other dimensionality raises `TypeError`. -/
def dispatch : List Nat → Except String ImgStep
  | [b, _, _, _] => Except.ok (ImgStep.grid4 (Nat.sqrt b))
  | [c, _, _] => Except.ok (ImgStep.single3 (c == 1))
  | [_, _] => Except.ok ImgStep.pass2
  | s =>
    Except.error
      ("Only support 4D, 3D or 2D tensor. But received with dimension: " ++
        toString s.length)

/-- Input to `tensor2img` (line 42): a tensor, a list of tensors, or an
unsupported type. -/
inductive T2IInput where
  | tensor (s : List Nat)
  | tlist (ss : List (List Nat))
  | other

/-- Per-tensor processing of the loop body (lines 48-69): squeeze dimension 0,
then dispatch on the resulting shape. -/
def processShape (s : List Nat) : Except String Unit :=
  match dispatch (squeeze0 s) with
  | Except.ok _ => Except.ok ()
  | Except.error e => Except.error e

/-- The `for _tensor in tensor` loop (lines 48-74): the first failing tensor
aborts with its error. -/
def processAll : List (List Nat) → Except String Unit
  | [] => Except.ok ()
  | s :: rest =>
    match processShape s with
    | Except.ok _ => processAll rest
    | Except.error e => Except.error e

/-- Error behaviour of `tensor2img` (lines 42-77): the type check of line 42,
then a singleton is wrapped into a list (line 46) and each tensor is
processed. -/
def tensor2imgCheck : T2IInput → Except String Unit
  | T2IInput.tensor s => processAll [s]
  | T2IInput.tlist ss => processAll ss
  | T2IInput.other => Except.error "tensor or list of tensors expected"

/-- Dimensionalities accepted by `tensor2img` for a given input shape: after
the `squeeze(0)` of line 49 the tensor must be 2-, 3- or 4-dimensional. -/
def goodDim (s : List Nat) : Prop :=
  (squeeze0 s).length = 2 ∨ (squeeze0 s).length = 3 ∨ (squeeze0 s).length = 4

instance (s : List Nat) : Decidable (goodDim s) := by
  unfold goodDim
  infer_instance

/-- `infer.py` line 241: `psnr = 10. * np.log10(255. * 255. / mse)`.  Under
the IEEE semantics of numpy, `mse == 0` produces `+inf`; the value is
therefore modelled in `EReal`, with `⊤` for the zero-MSE case. -/
noncomputable def psnr (mse : ℝ) : EReal :=
  if mse = 0 then ⊤ else ((10 * Real.logb 10 (255 * 255 / mse) : ℝ) : EReal)

/-- Attention column names of the width-4 schema (line 256). -/
def attNames4 : List String := ["t-1 lo", "t lo", "t+1 lo", "t hi"]

/-- Attention column names of the width-5 schema (line 258). -/
def attNames5 : List String := ["t-1 lo", "t lo", "t+1 lo", "t-1 hi", "t+1 hi"]

/-- Column `j` of the stacked attention matrix, `att_all[:, j]` (lines
254-258); `d` is the value default of the shape-level row read. -/
def colOf {α : Type} (d : α) (atts : List (List α)) (j : Nat) : List α :=
  atts.map (fun r => r.getD j d)

/-- `infer.py` lines 255-258: `result_dict` assembly keyed on the attention
width; there is no branch for any other width, so no dictionary is produced
(`none`), and the subsequent report write fails. -/
def resultDict {α : Type} (d : α) (psnrs aads ssims : List α)
    (atts : List (List α)) (w : Nat) : Option (List (String × List α)) :=
  if w = 4 then
    some [("psnr", psnrs), ("aad", aads), ("ssim", ssims),
          ("t-1 lo", colOf d atts 0), ("t lo", colOf d atts 1),
          ("t+1 lo", colOf d atts 2), ("t hi", colOf d atts 3)]
  else if w = 5 then
    some [("psnr", psnrs), ("aad", aads), ("ssim", ssims),
          ("t-1 lo", colOf d atts 0), ("t lo", colOf d atts 1),
          ("t+1 lo", colOf d atts 2), ("t-1 hi", colOf d atts 3),
          ("t+1 hi", colOf d atts 4)]
  else none

/-- `infer.py` lines 261-262: the `mask` column is appended to the report keys
exactly when the accumulated `masks` list is non-empty. -/
def finalKeys {α : Type} (masks : List Nat) (dict : List (String × List α)) :
    List String :=
  if masks.isEmpty then dict.map Prod.fst else dict.map Prod.fst ++ ["mask"]

/-- The per-index accumulation of the main loop (lines 189-251): for every
processed index one value is appended to each of `psnrs`, `aads`, `ssims`,
`atts` and `masks`; `metric i` abstracts the per-index inference and metric
computation, and the mask bit is the boundary flag of lines 217-220. -/
def runLoop {α : Type} (metric : Nat → α × α × α × List α) (N loSep hiSep : Nat) :
    List Nat → List α × List α × List α × List (List α) × List Nat
  | [] => ([], [], [], [], [])
  | i :: rest =>
    let r := runLoop metric N loSep hiSep rest
    ((metric i).1 :: r.1, (metric i).2.1 :: r.2.1, (metric i).2.2.1 :: r.2.2.1,
     (metric i).2.2.2 :: r.2.2.2.1, maskFlag N loSep hiSep i :: r.2.2.2.2)

/-! ## Helper lemmas -/

/-- The code's block start equals the spec's `floor(idx/(2*hiSep)) * (2*hiSep)`. -/
theorem blkStart_eq_spec (hiSep idx : Nat) :
    blkStart hiSep idx = blkStartSpec hiSep idx := by
  unfold blkStart blkStartSpec
  rw [Nat.zero_max, Nat.mul_assoc, Nat.mul_comm hiSep 2]

/-- The code's block end equals the spec's `min(maxValidHi, blkStart + 2*hiSep)`. -/
theorem blkEnd_eq_spec (maxValidHi hiSep idx : Nat) :
    blkEnd maxValidHi hiSep idx = blkEndSpec maxValidHi hiSep idx := by
  unfold blkEnd blkEndSpec blkStartSpec
  rw [Nat.mul_comm hiSep 2]
  congr 1
  ring

/-- The block start never exceeds the target index. -/
theorem blkStartSpec_le (hiSep idx : Nat) : blkStartSpec hiSep idx ≤ idx :=
  Nat.div_mul_le_self idx (2 * hiSep)

/-- The target index lies strictly below the next block boundary. -/
theorem lt_blkStartSpec_add (hiSep idx : Nat) (hh : 1 ≤ hiSep) :
    idx < blkStartSpec hiSep idx + 2 * hiSep := by
  unfold blkStartSpec
  have h0 : 0 < 2 * hiSep := by omega
  have hdm := Nat.div_add_mod idx (2 * hiSep)
  have hm : idx % (2 * hiSep) < 2 * hiSep := Nat.mod_lt _ h0
  calc idx = 2 * hiSep * (idx / (2 * hiSep)) + idx % (2 * hiSep) := hdm.symm
    _ < 2 * hiSep * (idx / (2 * hiSep)) + 2 * hiSep := Nat.add_lt_add_left hm _
    _ = idx / (2 * hiSep) * (2 * hiSep) + 2 * hiSep := by ring

/-- The block start is a multiple of the block length. -/
theorem blkStartSpec_dvd (hiSep idx : Nat) : (2 * hiSep) ∣ blkStartSpec hiSep idx :=
  dvd_mul_left (2 * hiSep) (idx / (2 * hiSep))

/-- Characterisation of the boundary flag being raised. -/
theorem maskFlag_one_iff (N loSep hiSep idx : Nat) :
    maskFlag N loSep hiSep idx = 1 ↔
      (idx = blkStart hiSep idx ∨ idx = min (N - 1) (idx + loSep)) := by
  by_cases h : idx = blkStart hiSep idx ∨ idx = min (N - 1) (idx + loSep)
  · simp [maskFlag, h]
  · simp [maskFlag, h]

/-- Characterisation of the boundary flag being clear. -/
theorem maskFlag_zero_iff (N loSep hiSep idx : Nat) :
    maskFlag N loSep hiSep idx = 0 ↔
      ¬(idx = blkStart hiSep idx ∨ idx = min (N - 1) (idx + loSep)) := by
  by_cases h : idx = blkStart hiSep idx ∨ idx = min (N - 1) (idx + loSep)
  · simp [maskFlag, h]
  · simp [maskFlag, h]

/-! ## Claims -/

/-- Claim C1: for every processed target index `idx` (`idx < N`, `loSep ≥ 1`,
`hiSep ≥ 1`), the recorded boundary flag is `1` exactly when
`idx = blkStart` (with `blkStart = floor(idx/(2*hiSep)) * (2*hiSep)`) or
`idx = clamp(idx + loSep, 0, N-1)`, and is `0` otherwise. -/
theorem c1_boundary_flag (N loSep hiSep idx : Nat)
    (hidx : idx < N) (hlo : 1 ≤ loSep) (hhi : 1 ≤ hiSep) :
    (maskFlag N loSep hiSep idx = 1 ↔
      (idx = blkStartSpec hiSep idx ∨
        (idx : Int) = clampSpec ((idx : Int) + (loSep : Int)) 0 ((N : Int) - 1))) ∧
    (maskFlag N loSep hiSep idx = 0 ↔
      ¬(idx = blkStartSpec hiSep idx ∨
        (idx : Int) = clampSpec ((idx : Int) + (loSep : Int)) 0 ((N : Int) - 1))) := by
  have hPQ : (idx = blkStart hiSep idx ∨ idx = min (N - 1) (idx + loSep)) ↔
      (idx = blkStartSpec hiSep idx ∨
        (idx : Int) = clampSpec ((idx : Int) + (loSep : Int)) 0 ((N : Int) - 1)) := by
    rw [blkStart_eq_spec]
    apply or_congr Iff.rfl
    unfold clampSpec
    constructor
    · intro h; omega
    · intro h; omega
  exact ⟨(maskFlag_one_iff N loSep hiSep idx).trans hPQ,
         (maskFlag_zero_iff N loSep hiSep idx).trans (not_congr hPQ)⟩

/-- Witness for C1 at `N = 10`, `loSep = 1`, `hiSep = 1`, `idx = 3`: the flag
is `0` because `3` is neither its block start (`2`) nor its clamped upper
neighbour (`4`). -/
theorem c1_boundary_flag_witness : maskFlag 10 1 1 3 = 0 :=
  (c1_boundary_flag 10 1 1 3 (by decide) (by decide) (by decide)).2.mpr (by decide)

/-- Claim C2: the low-resolution triple is assembled from the
`center_frame_idx` slices of the samples at
`clamp(idx - loSep, 0, N-1)`, `idx`, `clamp(idx + loSep, 0, N-1)`, in
(previous, current, next) order; for `N = 10`, `loSep = 2`, `idx = 9` the
fetch indices are `(7, 9, 9)`; and for `idx` in `[0, loSep)` resp.
`(N-1-loSep, N-1]` the boundary-adjacent slot equals the slot fetched at the
clamped edge index. -/
theorem c2_lq_assembly {α : Type} (ds : Nat → Sample α) (center N loSep idx : Nat)
    (d : α) (hidx : idx < N) (hlo : 1 ≤ loSep) :
    (lqTriple ds center N loSep idx d =
      ((ds (clampSpec ((idx : Int) - (loSep : Int)) 0 ((N : Int) - 1)).toNat).lowRes.getD center d,
       (ds idx).lowRes.getD center d,
       (ds (clampSpec ((idx : Int) + (loSep : Int)) 0 ((N : Int) - 1)).toNat).lowRes.getD center d)) ∧
    (∀ (g : Nat → Sample Nat) (c dd : Nat), lqTriple g c 10 2 9 dd =
      ((g 7).lowRes.getD c dd, (g 9).lowRes.getD c dd, (g 9).lowRes.getD c dd)) ∧
    (idx < loSep → (lqTriple ds center N loSep idx d).1 = (ds 0).lowRes.getD center d) ∧
    (N - 1 - loSep < idx →
      (lqTriple ds center N loSep idx d).2.2 = (ds (N - 1)).lowRes.getD center d) := by
  refine ⟨?_, ?_, ?_, ?_⟩
  · have e1 : (max 0 (idx - loSep) : Nat) =
        (clampSpec ((idx : Int) - (loSep : Int)) 0 ((N : Int) - 1)).toNat := by
      unfold clampSpec; omega
    have e2 : (min (N - 1) (idx + loSep) : Nat) =
        (clampSpec ((idx : Int) + (loSep : Int)) 0 ((N : Int) - 1)).toNat := by
      unfold clampSpec; omega
    unfold lqTriple
    rw [e1, e2]
  · intro g c dd
    rfl
  · intro h
    unfold lqTriple
    have e : max 0 (idx - loSep) = 0 := by omega
    rw [e]
  · intro h
    unfold lqTriple
    have e : min (N - 1) (idx + loSep) = N - 1 := by omega
    rw [e]

/-- Witness for C2 at a concrete Frame Source (`lowRes = [i]` at index `i`)
with `N = 10`, `loSep = 2`, `idx = 9`: the next-slot fetch is clamped to the
last index. -/
theorem c2_lq_assembly_witness :
    (lqTriple (fun i => ({ lowRes := [i], gt := none, image := none } : Sample Nat))
      0 10 2 9 0).2.2 = 9 := by
  have h := c2_lq_assembly (fun i => ({ lowRes := [i], gt := none, image := none } : Sample Nat))
    0 10 2 9 0 (by decide) (by decide)
  rw [h.2.2.2 (by decide)]
  rfl

/-- Claim C3: the high-resolution reference pair is fetched at
`blkStart = floor(idx/(2*hiSep)) * (2*hiSep)` and
`blkEnd = min(maxValidHiIndex, blkStart + 2*hiSep)`; `blkStart` is a multiple
of `2*hiSep` with `blkStart ≤ idx < blkStart + 2*hiSep`; and in the scenario
`N = 10`, `loSep = 1`, `hiSep = 1`, `idx = 0` the low-resolution triple is
fetched from `(0, 0, 1)`, `blkStart = 0`, `blkEnd = min(maxValidHiIndex, 2)`,
and the boundary flag is `1`. -/
theorem c3_block_indices (maxValidHi hiSep idx : Nat) (hhi : 1 ≤ hiSep) :
    blkStart hiSep idx = blkStartSpec hiSep idx ∧
    blkEnd maxValidHi hiSep idx = blkEndSpec maxValidHi hiSep idx ∧
    blkStartSpec hiSep idx ≤ idx ∧
    idx < blkStartSpec hiSep idx + 2 * hiSep ∧
    (2 * hiSep) ∣ blkStartSpec hiSep idx ∧
    (∀ (g : Nat → Sample Nat) (c d : Nat), lqTriple g c 10 1 0 d =
      ((g 0).lowRes.getD c d, (g 0).lowRes.getD c d, (g 1).lowRes.getD c d)) ∧
    blkStart 1 0 = 0 ∧
    (∀ m : Nat, blkEnd m 1 0 = min m 2) ∧
    maskFlag 10 1 1 0 = 1 :=
  ⟨blkStart_eq_spec hiSep idx, blkEnd_eq_spec maxValidHi hiSep idx,
   blkStartSpec_le hiSep idx, lt_blkStartSpec_add hiSep idx hhi,
   blkStartSpec_dvd hiSep idx, fun g c d => rfl, rfl, fun m => rfl, by decide⟩

/-- Witness for C3 at `maxValidHi = 5`, `hiSep = 1`, `idx = 3`. -/
theorem c3_block_indices_witness :
    blkStart 1 3 = blkStartSpec 1 3 ∧ 3 < blkStartSpec 1 3 + 2 * 1 := by
  have h := c3_block_indices 5 1 3 (by decide)
  exact ⟨h.1, h.2.2.2.1⟩

/-- Claim C4 counterexample: with `N = 10`, `loSep = 1`, `hiSep = 1`,
`idx = 9` and a configured `maxValidHiIndex = 10`, the `blkEnd` lookup
consults Frame Source index `10`, which is outside `[0, N-1] = [0, 9]` — the
claim fails as stated because `maxValidHiIndex` is not forced below `N`. -/
theorem c4_counterexample :
    blkEnd 10 1 9 ∈ windowLookups 10 10 1 1 9 ∧ ¬ blkEnd 10 1 9 ≤ 10 - 1 := by
  decide

/-- Claim C4 (amended): provided the configured `maxValidHiIndex` is at most
`N - 1`, every Frame Source lookup performed during window assembly for a
target index `idx < N` (with `loSep ≥ 1`, `hiSep ≥ 1`) uses an index within
`[0, N-1]` (lower bound automatic over `Nat`). -/
theorem c4_lookups_in_bounds (N maxValidHi loSep hiSep idx : Nat)
    (hidx : idx < N) (hmvh : maxValidHi ≤ N - 1) (hlo : 1 ≤ loSep) (hhi : 1 ≤ hiSep) :
    ∀ j ∈ windowLookups N maxValidHi loSep hiSep idx, j ≤ N - 1 := by
  intro j hj
  have hbs : blkStart hiSep idx ≤ idx := by
    rw [blkStart_eq_spec]
    exact blkStartSpec_le hiSep idx
  have hbe : blkEnd maxValidHi hiSep idx ≤ maxValidHi := by
    unfold blkEnd
    exact Nat.min_le_left _ _
  unfold windowLookups at hj
  simp only [List.mem_cons, List.not_mem_nil, or_false] at hj
  rcases hj with h | h | h | h | h <;> subst h <;> omega

/-- Witness for C4 (amended) at `N = 10`, `maxValidHiIndex = 8`, `loSep = 1`,
`hiSep = 1`, `idx = 9`: the `blkEnd` lookup stays in bounds. -/
theorem c4_lookups_in_bounds_witness : blkEnd 8 1 9 ≤ 10 - 1 :=
  c4_lookups_in_bounds 10 8 1 1 9 (by decide) (by decide) (by decide) (by decide)
    (blkEnd 8 1 9) (by decide)

/-- Concrete floor square root used by the C5 counterexample. -/
theorem sqrt_two_eq : Nat.sqrt 2 = 1 := by
  have h1 : 1 ≤ Nat.sqrt 2 := Nat.le_sqrt.mpr (by norm_num)
  have h2 : Nat.sqrt 2 < 2 := Nat.sqrt_lt.mpr (by norm_num)
  omega

/-- Claim C5 counterexample: for a 4-dimensional batch of size 2 the code
tiles with `int(math.sqrt(2)) = 1` column, while the claim's
`ceil(sqrt(2)) = 2`. -/
theorem c5_counterexample :
    dispatch [2, 3, 4, 4] = Except.ok (ImgStep.grid4 1) ∧
    ceilSqrtSpec 2 = 2 ∧ (1 : Nat) ≠ 2 := by
  refine ⟨?_, ?_, by decide⟩
  · show Except.ok (ImgStep.grid4 (Nat.sqrt 2)) = Except.ok (ImgStep.grid4 1)
    rw [sqrt_two_eq]
  · unfold ceilSqrtSpec
    rw [sqrt_two_eq]
    norm_num

/-- Claim C5 (amended): at the dimensionality dispatch of the Image Codec
Adapter, every 4-dimensional batched input is tiled into a grid with
`floor(sqrt(batchSize))` columns (not `ceil`) before channel reordering;
every 3-dimensional input is treated as a single image and is squeezed to 2D
exactly when it has one channel; every 2-dimensional input passes through
unchanged. -/
theorem c5_dispatch (b c h w : Nat) :
    dispatch [b, c, h, w] = Except.ok (ImgStep.grid4 (Nat.sqrt b)) ∧
    (dispatch [c, h, w] = Except.ok (ImgStep.single3 true) ↔ c = 1) ∧
    dispatch [c, h, w] = Except.ok (ImgStep.single3 (c == 1)) ∧
    dispatch [h, w] = Except.ok ImgStep.pass2 := by
  refine ⟨rfl, ?_, rfl, rfl⟩
  constructor
  · intro hEq
    have h2 : ImgStep.single3 (c == 1) = ImgStep.single3 true := by
      have h1 : (Except.ok (ImgStep.single3 (c == 1)) : Except String ImgStep) =
          Except.ok (ImgStep.single3 true) := hEq
      injection h1
    have h3 : (c == 1) = true := by injection h2
    simpa using h3
  · intro hc
    subst hc
    rfl

/-- Witness for C5 at a 3-dimensional single-channel shape: the dispatch
squeezes it to 2D. -/
theorem c5_dispatch_witness :
    dispatch [1, 4, 4] = Except.ok (ImgStep.single3 true) :=
  (c5_dispatch 2 1 4 4).2.1.mpr rfl

/-- Claim C6: with fixed peak 255, `psnr = 10 * log10(255^2 / mse)` is
strictly decreasing as the MSE increases, and it is `+infinity` exactly when
the MSE is `0` (the zero-MSE case is a representable `⊤`, not an error). -/
theorem c6_psnr (m1 m2 : ℝ) (h0 : 0 ≤ m1) (h12 : m1 < m2) :
    psnr m2 < psnr m1 ∧ (∀ m : ℝ, psnr m = ⊤ ↔ m = 0) := by
  constructor
  · rcases eq_or_lt_of_le h0 with h | h
    · have hm2 : m2 ≠ 0 := by
        intro hh
        rw [hh] at h12
        exact absurd (h12.trans_le h0) (lt_irrefl m1)
      unfold psnr
      rw [if_neg hm2, if_pos h.symm]
      exact EReal.coe_lt_top _
    · have hm1 : m1 ≠ 0 := (ne_of_gt h)
      have hm2 : m2 ≠ 0 := (ne_of_gt (h.trans h12))
      unfold psnr
      rw [if_neg hm2, if_neg hm1, EReal.coe_lt_coe_iff]
      have hx : (0 : ℝ) < 255 * 255 / m2 := div_pos (by norm_num) (h.trans h12)
      have hxy : 255 * 255 / m2 < 255 * 255 / m1 :=
        div_lt_div_of_pos_left (by norm_num) h h12
      have hlog := Real.logb_lt_logb (by norm_num : (1 : ℝ) < 10) hx hxy
      linarith
  · intro m
    unfold psnr
    by_cases hm : m = 0
    · simp [hm]
    · rw [if_neg hm]
      exact iff_of_false (EReal.coe_ne_top _) hm

/-- Witness for C6: the PSNR at MSE `1` is below the `+infinite` PSNR at
MSE `0`. -/
theorem c6_psnr_witness : psnr 1 < psnr 0 :=
  (c6_psnr 0 1 (by norm_num) (by norm_num)).1

/-- Claim C7: a Sample that exposes neither a `gt` nor an `image` field makes
window assembly for its target index fail with the missing-reference error:
the target-sample reference selection errors exactly when both fields are
absent, and the high-resolution pair assembly errors when the block-start
sample lacks both fields. -/
theorem c7_missing_reference {α : Type} (s : Sample α) (ds : Nat → Sample α)
    (maxValidHi hiSep idx : Nat) :
    (prepTarget s = Except.error RefError.missingReference ↔
      s.gt = none ∧ s.image = none) ∧
    ((ds (blkStart hiSep idx)).gt = none → (ds (blkStart hiSep idx)).image = none →
      assembleHq ds maxValidHi hiSep idx = Except.error RefError.missingReference) := by
  constructor
  · rcases hgt : s.gt with _ | g
    · rcases himg : s.image with _ | i
      · simp [prepTarget, hgt, himg]
      · simp [prepTarget, hgt, himg]
    · simp [prepTarget, hgt]
  · intro h1 h2
    unfold assembleHq
    simp only [h1, Option.isSome_none]
    unfold lookupRef
    simp [h2]

/-- Witness for C7 at a concrete Sample with both reference fields absent. -/
theorem c7_missing_reference_witness :
    prepTarget ({ lowRes := [], gt := none, image := none } : Sample Nat) =
      Except.error RefError.missingReference := by
  have h := c7_missing_reference ({ lowRes := [], gt := none, image := none } : Sample Nat)
    (fun _ => { lowRes := [], gt := none, image := none }) 0 1 0
  exact h.1.mpr ⟨rfl, rfl⟩

/-- Per-tensor processing succeeds exactly when the squeezed shape is 2-, 3-
or 4-dimensional. -/
theorem processShape_ok_iff (s : List Nat) :
    processShape s = Except.ok () ↔ goodDim s := by
  unfold processShape goodDim
  generalize squeeze0 s = t
  rcases t with _ | ⟨a, _ | ⟨b, _ | ⟨c, _ | ⟨d, _ | ⟨e, rest⟩⟩⟩⟩⟩ <;>
    simp [dispatch]

/-- The tensor-list loop succeeds exactly when every tensor has an accepted
dimensionality. -/
theorem processAll_ok_iff (ss : List (List Nat)) :
    processAll ss = Except.ok () ↔ ∀ s ∈ ss, goodDim s := by
  induction ss with
  | nil => simp [processAll]
  | cons s rest ih =>
    unfold processAll
    rcases hps : processShape s with e | u
    · simp only [List.mem_cons]
      constructor
      · intro h
        exact absurd h (by simp)
      · intro h
        have hg : goodDim s := h s (Or.inl rfl)
        rw [← processShape_ok_iff, hps] at hg
        exact absurd hg (by simp)
    · have hg : goodDim s := by
        rw [← processShape_ok_iff, hps]
      simp [ih, hg]

/-- Claim C8 counterexample: a 5-dimensional tensor with leading dimension 1
is accepted (the `squeeze(0)` of line 49 runs before the dimensionality
check), although its dimensionality is not 2, 3 or 4 — so "fails exactly
when the dimensionality is not 2, 3, or 4" is false as stated. -/
theorem c8_counterexample :
    tensor2imgCheck (T2IInput.tensor [1, 1, 1, 1, 1]) = Except.ok () ∧
    ¬([1, 1, 1, 1, 1].length = 2 ∨ [1, 1, 1, 1, 1].length = 3 ∨
      [1, 1, 1, 1, 1].length = 4) :=
  ⟨rfl, by decide⟩

/-- Claim C8 (amended): `tensor2img` fails with a `TypeError`-equivalent
exactly when the input is of an unsupported type (neither a tensor nor a
list of tensors) or some input tensor's dimensionality after removing a
leading size-1 dimension (`squeeze(0)`) is not 2, 3, or 4; for all other
inputs it returns without error. -/
theorem c8_type_and_dim_errors :
    (∀ s : List Nat, tensor2imgCheck (T2IInput.tensor s) = Except.ok () ↔ goodDim s) ∧
    (∀ ss : List (List Nat),
      tensor2imgCheck (T2IInput.tlist ss) = Except.ok () ↔ ∀ s ∈ ss, goodDim s) ∧
    (∀ r : Unit, tensor2imgCheck T2IInput.other ≠ Except.ok r) := by
  refine ⟨?_, ?_, ?_⟩
  · intro s
    show processAll [s] = Except.ok () ↔ goodDim s
    rw [processAll_ok_iff]
    simp
  · intro ss
    exact processAll_ok_iff ss
  · intro r
    simp [tensor2imgCheck]

/-- Witness for C8 at a 3-dimensional RGB shape: accepted without error. -/
theorem c8_type_and_dim_errors_witness :
    tensor2imgCheck (T2IInput.tensor [3, 4, 5]) = Except.ok () :=
  (c8_type_and_dim_errors.1 [3, 4, 5]).mpr (by decide)

/-- Unfolded form of the accumulation loop: each metric list is the map of its
per-index component over the processed indices, and the masks list is the map
of the boundary flag. -/
theorem runLoop_eq {α : Type} (metric : Nat → α × α × α × List α)
    (N loSep hiSep : Nat) (idxs : List Nat) :
    runLoop metric N loSep hiSep idxs =
      (idxs.map fun i => (metric i).1,
       idxs.map fun i => (metric i).2.1,
       idxs.map fun i => (metric i).2.2.1,
       idxs.map fun i => (metric i).2.2.2,
       idxs.map (maskFlag N loSep hiSep)) := by
  induction idxs with
  | nil => rfl
  | cons i rest ih => simp [runLoop, ih]

/-- Claim C9: the report schema is determined by the AttentionVector width —
width 4 yields the named attention columns `t-1 lo, t lo, t+1 lo, t hi`,
width 5 yields `t-1 lo, t lo, t+1 lo, t-1 hi, t+1 hi`, and any other width
produces no report dictionary (invalid input); every column of the produced
dictionary holds one row per processed index, and the `mask` column from the
accumulated boundary flags is appended whenever at least one index was
processed. -/
theorem c9_report_schema {α : Type} (d : α) (metric : Nat → α × α × α × List α)
    (N loSep hiSep w : Nat) (idxs : List Nat) (p a s : List α)
    (t : List (List α)) (m : List Nat)
    (hrun : runLoop metric N loSep hiSep idxs = (p, a, s, t, m)) :
    ((resultDict d p a s t w).isSome ↔ (w = 4 ∨ w = 5)) ∧
    (w = 4 → (resultDict d p a s t w).map (fun dict => dict.map Prod.fst) =
      some (["psnr", "aad", "ssim"] ++ attNames4)) ∧
    (w = 5 → (resultDict d p a s t w).map (fun dict => dict.map Prod.fst) =
      some (["psnr", "aad", "ssim"] ++ attNames5)) ∧
    (∀ dict, resultDict d p a s t w = some dict →
      ∀ pr ∈ dict, pr.2.length = idxs.length) ∧
    m = idxs.map (maskFlag N loSep hiSep) ∧
    (∀ dict, resultDict d p a s t w = some dict → idxs ≠ [] →
      finalKeys m dict = dict.map Prod.fst ++ ["mask"]) := by
  rw [runLoop_eq] at hrun
  have hp : idxs.map (fun i => (metric i).1) = p := congrArg (fun x => x.1) hrun
  have ha : idxs.map (fun i => (metric i).2.1) = a := congrArg (fun x => x.2.1) hrun
  have hs : idxs.map (fun i => (metric i).2.2.1) = s := congrArg (fun x => x.2.2.1) hrun
  have ht : idxs.map (fun i => (metric i).2.2.2) = t := congrArg (fun x => x.2.2.2.1) hrun
  have hm : idxs.map (maskFlag N loSep hiSep) = m := congrArg (fun x => x.2.2.2.2) hrun
  refine ⟨?_, ?_, ?_, ?_, hm.symm, ?_⟩
  · by_cases h4 : w = 4
    · simp [resultDict, h4]
    · by_cases h5 : w = 5 <;> simp [resultDict, h4, h5]
  · intro h4
    simp [resultDict, h4, attNames4]
  · intro h5
    have h4 : w ≠ 4 := by omega
    simp [resultDict, h4, h5, attNames5]
  · intro dict hdict pr hpr
    have hlp : p.length = idxs.length := by rw [← hp]; exact List.length_map ..
    have hla : a.length = idxs.length := by rw [← ha]; exact List.length_map ..
    have hls : s.length = idxs.length := by rw [← hs]; exact List.length_map ..
    have hlt : t.length = idxs.length := by rw [← ht]; exact List.length_map ..
    have hcol : ∀ j, (colOf d t j).length = idxs.length := by
      intro j
      unfold colOf
      rw [List.length_map]
      exact hlt
    by_cases h4 : w = 4
    · rw [resultDict, if_pos h4] at hdict
      obtain rfl : dict = _ := (Option.some.injEq .. ▸ hdict.symm : _)
      simp only [List.mem_cons, List.not_mem_nil, or_false] at hpr
      rcases hpr with h | h | h | h | h | h | h <;> subst h <;>
        first
          | exact hlp | exact hla | exact hls | exact hcol 0 | exact hcol 1
          | exact hcol 2 | exact hcol 3
    · by_cases h5 : w = 5
      · rw [resultDict, if_neg h4, if_pos h5] at hdict
        obtain rfl : dict = _ := (Option.some.injEq .. ▸ hdict.symm : _)
        simp only [List.mem_cons, List.not_mem_nil, or_false] at hpr
        rcases hpr with h | h | h | h | h | h | h | h <;> subst h <;>
          first
            | exact hlp | exact hla | exact hls | exact hcol 0 | exact hcol 1
            | exact hcol 2 | exact hcol 3 | exact hcol 4
      · rw [resultDict, if_neg h4, if_neg h5] at hdict
        exact absurd hdict (by simp)
  · intro dict hdict hne
    have hmne : ¬ m.isEmpty = true := by
      rw [← hm]
      simp [List.isEmpty_iff, hne]
    unfold finalKeys
    rw [if_neg hmne]

/-- Witness for C9 at a one-index run with attention width 4. -/
theorem c9_report_schema_witness :
    (resultDict (0 : Nat) [0] [0] [0] [[0, 0, 0, 0]] 4).map
      (fun dict => dict.map Prod.fst) =
      some (["psnr", "aad", "ssim"] ++ attNames4) := by
  have h := c9_report_schema (0 : Nat) (fun _ => (0, 0, 0, [0, 0, 0, 0]))
    10 1 1 4 [1] [0] [0] [0] [[0, 0, 0, 0]] [0] (by rfl)
  exact h.2.1 rfl

/-- Claim C10: `tensor2img` removes a leading size-1 dimension from every
input tensor before the dimensionality dispatch: a 4-dimensional tensor with
first dimension 1 is handled by the 3-dimensional branch (no grid tiling),
and a 5-dimensional tensor with first dimension 1 is handled by the
4-dimensional branch without raising an error. -/
theorem c10_leading_squeeze (b c h w : Nat) :
    (∀ s : List Nat, squeeze0 (1 :: s) = s) ∧
    dispatch (squeeze0 [1, c, h, w]) = Except.ok (ImgStep.single3 (c == 1)) ∧
    dispatch (squeeze0 [1, b, c, h, w]) = Except.ok (ImgStep.grid4 (Nat.sqrt b)) :=
  ⟨fun _ => rfl, rfl, rfl⟩
